import Mathlib

/-!
Verification of the SphereRyder Password Manager core (password_manager.py)
against its natural-language specification.

The PasswordManager class is shallowly embedded: its on-disk JSON stores
become association lists (Python dicts preserve insertion order, and
json.dump serialises them in that order, so list equality models
byte-for-byte file equality), its randomness sources (os.urandom,
bcrypt.gensalt, secrets.choice, shuffle) become explicit parameters, and
the vetted external crypto primitives (AES-256-GCM, PBKDF2, bcrypt) are
modelled symbolically by their call contracts: a ciphertext records the
key and nonce it was produced under, and decryption succeeds exactly when
the presented key and nonce match; key derivation is deterministic and
injective in (password, salt); a bcrypt hash embeds its own salt and
verifies exactly the password it hashed.
-/

/-- A PBKDF2-derived 256-bit key, modelled by the (password, salt) pair
that determines it (derivation is deterministic; the model idealises it
as injective). A real derived key is 32 bytes, hence never falsy. -/
structure Key where
  kdfPassword : String
  kdfSalt : Nat
deriving DecidableEq

/-- `_derive_key(password, salt)`: PBKDF2-HMAC-SHA256, 480000 iterations,
32-byte output. Deterministic in its inputs. -/
def _derive_key (password : String) (salt : Nat) : Key :=
  { kdfPassword := password, kdfSalt := salt }

/-- A bcrypt hash, which embeds its own per-call random salt
(`bcrypt.gensalt(rounds=12)`). -/
structure BcryptHash where
  hashedPassword : String
  bcryptSalt : Nat
deriving DecidableEq

/-- `_hash_password(password)`: bcrypt with a fresh random salt, passed
here explicitly as `bsalt`. -/
def _hash_password (password : String) (bsalt : Nat) : BcryptHash :=
  { hashedPassword := password, bcryptSalt := bsalt }

/-- `_verify_password(password, hashed)`: bcrypt.checkpw. -/
def _verify_password (password : String) (hashed : BcryptHash) : Bool :=
  hashed.hashedPassword == password

/-- An AES-256-GCM ciphertext (base64 in the JSON store), modelled by the
plaintext together with the key and nonce used at encryption time: the
GCM authentication tag binds all three. -/
structure Ciphertext where
  plaintext : String
  encKey : Key
  encNonce : Nat
deriving DecidableEq

/-- Convenience constructor for the symbolic ciphertext record. -/
def mkCipher (p : String) (k : Key) (n : Nat) : Ciphertext :=
  { plaintext := p, encKey := k, encNonce := n }

/-- `_encrypt_password(password, key)`: AES-GCM under a fresh random
96-bit nonce (os.urandom(12), passed explicitly). Returns the
(ciphertext, nonce) pair, both base64-encoded in the store. -/
def _encrypt_password (password : String) (key : Key) (nonce : Nat) :
    Ciphertext × Nat :=
  ({ plaintext := password, encKey := key, encNonce := nonce }, nonce)

/-- `_decrypt_password(encrypted_data, nonce, key)`: AES-GCM decryption;
`none` models the InvalidTag exception raised when the authentication tag
does not verify (wrong key or wrong nonce). -/
def _decrypt_password (encrypted_data : Ciphertext) (nonce : Nat)
    (key : Key) : Option String :=
  if encrypted_data.encKey = key ∧ encrypted_data.encNonce = nonce then
    some encrypted_data.plaintext
  else
    none

/-- One value of the per-domain dict in passwords.json. The metadata
fields are `Option`s because `get_password` reads them with `.get`
(absent keys read as None), and the rotation pass writes dicts that omit
`username`, `notes` and `created_at`. -/
structure PwdEntry where
  encrypted_data : Ciphertext
  nonce : Nat
  username : Option String
  notes : Option String
  created_at : Option Nat
  updated_at : Option Nat
deriving DecidableEq

/-- One value of users.json: bcrypt hash, base64 KDF salt, timestamps. -/
structure UserRecord where
  password_hash : BcryptHash
  salt : Nat
  created_at : Nat
  last_login : Option Nat
deriving DecidableEq

abbrev UsersFile := List (String × UserRecord)
abbrev UserPwds := List (String × PwdEntry)
abbrev PasswordsFile := List (String × UserPwds)

/-- Python dict lookup `d.get(k)` / `k in d`, on the association-list
model of a JSON object. -/
def alookup {α : Type} (k : String) : List (String × α) → Option α
  | [] => none
  | (k2, v) :: rest => if k2 = k then some v else alookup k rest

/-- Python dict assignment `d[k] = v`: replaces in place when the key
exists (insertion order preserved), appends otherwise. -/
def aset {α : Type} (k : String) (v : α) :
    List (String × α) → List (String × α)
  | [] => [(k, v)]
  | (k2, v2) :: rest =>
      if k2 = k then (k, v) :: rest else (k2, v2) :: aset k v rest

/-- Python `del d[k]`. -/
def adel {α : Type} (k : String) : List (String × α) → List (String × α)
  | [] => []
  | (k2, v2) :: rest => if k2 = k then rest else (k2, v2) :: adel k rest

/-- The whole persisted and in-memory state of a PasswordManager
instance: the three data files plus the session fields. -/
structure PMState where
  users_file : UsersFile
  passwords_file : PasswordsFile
  logs_file : List String
  current_user : Option String
  current_key : Option Key
deriving DecidableEq

deriving instance DecidableEq for Except

/-- One line of activity.log: `[timestamp] username: action`. -/
def logLine (now : Nat) (username action : String) : String :=
  "[" ++ toString now ++ "] " ++ username ++ ": " ++ action

/-- `_log_activity(username, action)`: appends one line to activity.log. -/
def _log_activity (username action : String) (now : Nat) (s : PMState) :
    PMState :=
  { s with logs_file := s.logs_file ++ [logLine now username action] }

/-- Python truthiness of the `Optional[str]` session field
`self.current_user`: falsy when None or the empty string. -/
def falsyUser : Option String → Bool
  | none => true
  | some u => u == ""

/-- `authenticate(username, password)`. -/
def authenticate (username password : String) (now : Nat) (s : PMState) :
    Bool × PMState :=
  match alookup username s.users_file with
  | none =>
      (false, _log_activity username "Failed login attempt - user not found" now s)
  | some user_data =>
      if _verify_password password user_data.password_hash then
        let key := _derive_key password user_data.salt
        let users := aset username { user_data with last_login := some now }
          s.users_file
        (true, _log_activity username "Successful login" now
          { s with users_file := users,
                   current_user := some username,
                   current_key := some key })
      else
        (false,
         _log_activity username "Failed login attempt - incorrect password" now s)

/-- The decryption loop of `change_master_password`: decrypts every entry
of the user's dict in order; `none` models the first uncaught exception
(InvalidTag from AES-GCM, or TypeError when `self.current_key` is None
and an entry exists). An empty dict never touches the key. -/
def decryptAllEntries (key : Option Key) : UserPwds →
    Option (List (String × String))
  | [] => some []
  | (domain, pwd_data) :: rest =>
      match key with
      | none => none
      | some k =>
          match _decrypt_password pwd_data.encrypted_data pwd_data.nonce k with
          | none => none
          | some p =>
              match decryptAllEntries (some k) rest with
              | none => none
              | some ps => some ((domain, p) :: ps)

/-- The re-encryption loop of `change_master_password`: each entry gets a
fresh nonce (consumed from the supply) and a dict holding only
`encrypted_data`, `nonce` and `updated_at`. -/
def reEncryptEntries (key : Key) (now : Nat) :
    List (String × String) → List Nat → UserPwds
  | [], _ => []
  | (domain, plain) :: rest, nonces =>
      let en := _encrypt_password plain key (nonces.headD 0)
      (domain, { encrypted_data := en.1, nonce := en.2,
                 username := none, notes := none,
                 created_at := none, updated_at := some now }) ::
        reEncryptEntries key now rest nonces.tail

/-- `change_master_password(old_password, new_password)`. The fresh
randomness (os.urandom(32) salt, bcrypt salt, re-encryption nonces) is
passed explicitly. `Except.error s` models an exception propagating to
the caller with the persisted state at that moment. -/
def change_master_password (old_password new_password : String)
    (new_salt new_bsalt : Nat) (nonces : List Nat) (now : Nat)
    (s : PMState) : Except PMState (Bool × PMState) :=
  match s.current_user with
  | none => Except.ok (false, s)
  | some cu =>
      if cu = "" then Except.ok (false, s)
      else
        match alookup cu s.users_file with
        | none => Except.error s
        | some user_data =>
            if _verify_password old_password user_data.password_hash then
              let user_passwords := (alookup cu s.passwords_file).getD []
              match decryptAllEntries s.current_key user_passwords with
              | none => Except.error s
              | some decrypted =>
                  let new_hash := _hash_password new_password new_bsalt
                  let new_key := _derive_key new_password new_salt
                  let re_encrypted := reEncryptEntries new_key now decrypted nonces
                  let users := aset cu
                    { user_data with password_hash := new_hash, salt := new_salt }
                    s.users_file
                  let pwds := aset cu re_encrypted s.passwords_file
                  Except.ok (true,
                    _log_activity cu "Master password changed successfully" now
                      { s with users_file := users,
                               passwords_file := pwds,
                               current_key := some new_key })
            else
              Except.ok (false,
                _log_activity cu "Failed password change - incorrect old password"
                  now s)

/-- string.ascii_uppercase. -/
def ascii_uppercase : List Char := "ABCDEFGHIJKLMNOPQRSTUVWXYZ".toList

/-- string.ascii_lowercase. -/
def ascii_lowercase : List Char := "abcdefghijklmnopqrstuvwxyz".toList

/-- string.digits. -/
def string_digits : List Char := "0123456789".toList

/-- The special-character pool used by generate_password. -/
def special_chars : List Char := "!@#$%^&*()_+-=[]\x7b\x7d|;:,.<>?".toList

/-- The fallback pool when no class is selected:
string.ascii_letters + string.digits + "!@#$%^&*()_+-=". -/
def default_chars : List Char :=
  ascii_lowercase ++ ascii_uppercase ++ string_digits ++
    "!@#$%^&*()_+-=".toList

/-- The `if length < 12: length = 12` floor of generate_password. -/
def gpLength (length : Nat) : Nat :=
  if length < 12 then 12 else length

/-- The `chars` pool built by generate_password from the enabled
classes, with the all-disabled fallback. -/
def gpChars (use_uppercase use_lowercase use_digits use_special : Bool) :
    List Char :=
  let chars : List Char :=
    (if use_uppercase then ascii_uppercase else []) ++
    (if use_lowercase then ascii_lowercase else []) ++
    (if use_digits then string_digits else []) ++
    (if use_special then special_chars else [])
  if chars = [] then default_chars else chars

/-- The per-class seed characters generate_password appends first, one
secrets.choice call per enabled class. -/
def gpSeeds (use_uppercase use_lowercase use_digits use_special : Bool)
    (choice : List Char → Nat → Char) : List Char :=
  (if use_uppercase then [choice ascii_uppercase 0] else []) ++
  (if use_lowercase then [choice ascii_lowercase 1] else []) ++
  (if use_digits then [choice string_digits 2] else []) ++
  (if use_special then [choice special_chars 3] else [])

/-- `generate_password(length, use_uppercase, use_lowercase, use_digits,
use_special)`. The CSPRNG is abstracted: `choice pool i` is the i-th call
to secrets.choice on `pool`, and `shuffle` is
secrets.SystemRandom().shuffle. Returns the character list that
`''.join(password)` serialises. -/
def generate_password (length : Nat)
    (use_uppercase use_lowercase use_digits use_special : Bool)
    (choice : List Char → Nat → Char)
    (shuffle : List Char → List Char) : List Char :=
  let length := gpLength length
  let password := gpSeeds use_uppercase use_lowercase use_digits use_special
    choice
  let remaining := length - password.length
  shuffle (password ++ (List.range remaining).map
    (fun i => choice (gpChars use_uppercase use_lowercase use_digits
      use_special) (4 + i)))

/-- `add_password(domain, password=None, username=None, notes=None)`.
`gen16` is the string `self.generate_password(16)` would return, used
only when `password` is None; `nonce` is the fresh os.urandom(12). -/
def add_password (domain : String) (password : Option String)
    (username notes : Option String) (gen16 : String) (nonce : Nat)
    (now : Nat) (s : PMState) : Bool × PMState :=
  match s.current_user, s.current_key with
  | some cu, some key =>
      if cu = "" then (false, s)
      else
        let pwd := password.getD gen16
        let en := _encrypt_password pwd key nonce
        let userMap := (alookup cu s.passwords_file).getD []
        let entry : PwdEntry :=
          { encrypted_data := en.1, nonce := en.2,
            username := username, notes := notes,
            created_at := some now, updated_at := some now }
        let pf := aset cu (aset domain entry userMap) s.passwords_file
        (true, _log_activity cu ("Added password for domain: " ++ domain) now
          { s with passwords_file := pf })
  | _, _ => (false, s)

/-- The dict `get_password` returns on success: decrypted password plus
the metadata read with `.get` (absent keys read as None). -/
structure GetResult where
  password : String
  username : Option String
  notes : Option String
  created_at : Option Nat
  updated_at : Option Nat
deriving DecidableEq

/-- `get_password(domain)`. The try/except around decryption catches
every exception, so the function is total: integrity failure degrades to
None plus a log line. -/
def get_password (domain : String) (now : Nat) (s : PMState) :
    Option GetResult × PMState :=
  match s.current_user, s.current_key with
  | some cu, some key =>
      if cu = "" then (none, s)
      else
        match alookup cu s.passwords_file with
        | none => (none, s)
        | some userMap =>
            match alookup domain userMap with
            | none => (none, s)
            | some pwd_data =>
                match _decrypt_password pwd_data.encrypted_data
                    pwd_data.nonce key with
                | some p =>
                    (some { password := p,
                            username := pwd_data.username,
                            notes := pwd_data.notes,
                            created_at := pwd_data.created_at,
                            updated_at := pwd_data.updated_at },
                     _log_activity cu
                       ("Retrieved password for domain: " ++ domain) now s)
                | none =>
                    (none, _log_activity cu
                      ("Failed to decrypt password for " ++ domain) now s)
  | _, _ => (none, s)

/-- `get_all_domains()`: pure read, no decryption, no logging. -/
def get_all_domains (s : PMState) : List String :=
  match s.current_user with
  | none => []
  | some cu =>
      if cu = "" then []
      else
        match alookup cu s.passwords_file with
        | none => []
        | some userMap => userMap.map Prod.fst

/-- `update_password(domain, new_password=None)`: re-encrypts under a
fresh nonce, keeps username/notes/created_at, bumps updated_at. -/
def update_password (domain : String) (new_password : Option String)
    (gen16 : String) (nonce : Nat) (now : Nat) (s : PMState) :
    Bool × PMState :=
  match s.current_user, s.current_key with
  | some cu, some key =>
      if cu = "" then (false, s)
      else
        match alookup cu s.passwords_file with
        | none => (false, s)
        | some userMap =>
            match alookup domain userMap with
            | none => (false, s)
            | some pwd_data =>
                let pwd := new_password.getD gen16
                let en := _encrypt_password pwd key nonce
                let entry := { pwd_data with
                  encrypted_data := en.1, nonce := en.2,
                  updated_at := some now }
                let pf := aset cu (aset domain entry userMap) s.passwords_file
                (true, _log_activity cu
                  ("Updated password for domain: " ++ domain) now
                  { s with passwords_file := pf })
  | _, _ => (false, s)

/-- `delete_password(domain)`: guards only on current_user. -/
def delete_password (domain : String) (now : Nat) (s : PMState) :
    Bool × PMState :=
  match s.current_user with
  | none => (false, s)
  | some cu =>
      if cu = "" then (false, s)
      else
        match alookup cu s.passwords_file with
        | none => (false, s)
        | some userMap =>
            match alookup domain userMap with
            | none => (false, s)
            | some _ =>
                let pf := aset cu (adel domain userMap) s.passwords_file
                (true, _log_activity cu
                  ("Deleted password for domain: " ++ domain) now
                  { s with passwords_file := pf })

/-- Python list slice `l[start:]` for an integer `start` (negative start
counts from the end, clamped at 0; nonnegative start clamped at len). -/
def pySliceFrom (l : List String) (start : Int) : List String :=
  if start < 0 then l.drop (l.length - (-start).toNat)
  else l.drop start.toNat

/-- `get_activity_logs(limit=50)`: returns `logs[-limit:]`. -/
def get_activity_logs (limit : Nat) (s : PMState) : List String :=
  pySliceFrom s.logs_file (-(limit : Int))

/-- `logout()`: logs when a user is active, then clears both session
fields. -/
def logout (now : Nat) (s : PMState) : PMState :=
  let s1 :=
    match s.current_user with
    | some cu => if cu = "" then s else _log_activity cu "Logged out" now s
    | none => s
  { s1 with current_user := none, current_key := none }

/-- `__init__` on a fresh data directory: _initialize_data_files seeds
the three test accounts, an empty passwords.json, and the startup log
lines; both session fields start as None. -/
def initState (adminBS testBS demoBS adminSalt testSalt demoSalt : Nat)
    (now : Nat) : PMState :=
  { users_file :=
      [("admin", { password_hash := _hash_password "Admin@2024" adminBS,
                   salt := adminSalt, created_at := now, last_login := none }),
       ("testuser", { password_hash := _hash_password "Test@2024" testBS,
                      salt := testSalt, created_at := now, last_login := none }),
       ("demo", { password_hash := _hash_password "Demo@2024" demoBS,
                  salt := demoSalt, created_at := now, last_login := none })],
    passwords_file := [],
    logs_file :=
      [logLine now "SYSTEM" "Initialized users database with test accounts",
       logLine now "SYSTEM" "Initialized passwords database",
       logLine now "SYSTEM" "Password Manager initialized"],
    current_user := none,
    current_key := none }

/-- The session invariant of C9: the session user and the derived key are
both present or both absent. -/
def sessionConsistent (s : PMState) : Prop :=
  s.current_user.isSome = s.current_key.isSome

/-! ## Association-list lemmas -/

theorem alookup_aset_self {α : Type} (k : String) (v : α)
    (l : List (String × α)) : alookup k (aset k v l) = some v := by
  induction l with
  | nil => simp [aset, alookup]
  | cons hd tl ih =>
      obtain ⟨k2, v2⟩ := hd
      by_cases h : k2 = k <;> simp [aset, alookup, h, ih]

theorem mem_aset {α : Type} {p : String × α} {k : String} {v : α}
    {l : List (String × α)} (h : p ∈ aset k v l) : p = (k, v) ∨ p ∈ l := by
  induction l with
  | nil => simpa [aset] using h
  | cons hd tl ih =>
      obtain ⟨k2, v2⟩ := hd
      by_cases hk : k2 = k
      · simp only [aset, if_pos hk, List.mem_cons] at h
        rcases h with h | h
        · exact Or.inl h
        · exact Or.inr (List.mem_cons_of_mem _ h)
      · simp only [aset, if_neg hk, List.mem_cons] at h
        rcases h with h | h
        · exact Or.inr (h ▸ List.mem_cons_self _ _)
        · rcases ih h with h1 | h1
          · exact Or.inl h1
          · exact Or.inr (List.mem_cons_of_mem _ h1)

theorem alookup_map_snd {α β : Type} (f : α → β) (k : String)
    (l : List (String × α)) :
    alookup k (l.map (fun q => (q.1, f q.2))) = (alookup k l).map f := by
  induction l with
  | nil => rfl
  | cons hd tl ih =>
      obtain ⟨k2, v2⟩ := hd
      by_cases h : k2 = k <;> simp [alookup, h, ih]

/-- When every stored entry was encrypted under `k` with its stored
nonce, the rotation decryption loop succeeds and returns exactly the
stored plaintexts, in order. -/
theorem decryptAllEntries_ok (k : Key) (l : UserPwds)
    (h : ∀ q ∈ l, q.2.encrypted_data.encKey = k ∧
      q.2.encrypted_data.encNonce = q.2.nonce) :
    decryptAllEntries (some k) l =
      some (l.map (fun q => (q.1, q.2.encrypted_data.plaintext))) := by
  induction l with
  | nil => simp [decryptAllEntries]
  | cons hd tl ih =>
      obtain ⟨hk, hn⟩ := h hd (List.mem_cons_self _ _)
      have htl := ih (fun q hq => h q (List.mem_cons_of_mem _ hq))
      simp [decryptAllEntries, _decrypt_password, hk, hn, htl]

/-- A domain present in the decrypted list reappears after the
re-encryption loop, carrying its plaintext under the new key and some
fresh nonce, with all other metadata fields absent. -/
theorem alookup_reEncryptEntries (key : Key) (now : Nat) (d : String)
    (plain : List (String × String)) (nonces : List Nat) (P : String)
    (h : alookup d plain = some P) :
    ∃ n, alookup d (reEncryptEntries key now plain nonces) =
      some { encrypted_data := { plaintext := P, encKey := key, encNonce := n },
             nonce := n, username := none, notes := none,
             created_at := none, updated_at := some now } := by
  induction plain generalizing nonces with
  | nil => simp [alookup] at h
  | cons hd tl ih =>
      obtain ⟨d2, p2⟩ := hd
      by_cases hd2 : d2 = d
      · subst hd2
        have h2 : p2 = P := by simpa [alookup] using h
        subst h2
        exact ⟨nonces.headD 0,
          by simp [reEncryptEntries, alookup, _encrypt_password]⟩
      · simp only [alookup, if_neg hd2] at h
        obtain ⟨n, hn⟩ := ih nonces.tail h
        exact ⟨n,
          by simp [reEncryptEntries, alookup, hd2, _encrypt_password, hn]⟩

/-! ## Claim theorems -/

/-- C4: for every plaintext password P, 256-bit key K and fresh nonce,
decrypting the (ciphertext, nonce) pair produced by `_encrypt_password`
with the same key K returns P. -/
theorem encrypt_decrypt_roundtrip (P : String) (K : Key) (nonce : Nat) :
    _decrypt_password (_encrypt_password P K nonce).1
      (_encrypt_password P K nonce).2 K = some P := by
  simp [_encrypt_password, _decrypt_password]

/-- C10: `get_activity_logs(limit)` returns the last `limit` log lines in
file order when limit > 0, and the whole log when limit = 0 (Python
`logs[-0:]` is `logs[0:]`, the full list, not the empty list). -/
theorem get_activity_logs_spec (limit : Nat) (s : PMState) :
    (0 < limit → get_activity_logs limit s =
      s.logs_file.drop (s.logs_file.length - limit)) ∧
    get_activity_logs 0 s = s.logs_file := by
  constructor
  · intro h
    have hneg : -(limit : Int) < 0 := by omega
    unfold get_activity_logs pySliceFrom
    rw [if_pos hneg]
    simp
  · simp [get_activity_logs, pySliceFrom]

/-- A state with three log lines and no session, used to instantiate
`get_activity_logs_spec`. -/
def sLogs : PMState :=
  { users_file := [], passwords_file := [], logs_file := ["a", "b", "c"],
    current_user := none, current_key := none }

/-- C10 witness: at limit 2 the last two lines come back; at limit 0 the
whole log comes back. -/
theorem get_activity_logs_spec_witness :
    get_activity_logs 2 sLogs =
      sLogs.logs_file.drop (sLogs.logs_file.length - 2) ∧
    get_activity_logs 0 sLogs = sLogs.logs_file :=
  ⟨(get_activity_logs_spec 2 sLogs).1 (by decide),
   (get_activity_logs_spec 0 sLogs).2⟩

/-- C7: while no session is active (current_user is None), every
CredentialStore and rotation operation fails immediately with its safe
failure value and leaves the entire state — user directory, credential
store and log — unchanged. -/
theorem no_session_rejects (s : PMState) (h : s.current_user = none)
    (d old new gen : String) (pw un nt : Option String)
    (nonce now ns nbs : Nat) (nonces : List Nat) :
    add_password d pw un nt gen nonce now s = (false, s) ∧
    get_password d now s = (none, s) ∧
    update_password d pw gen nonce now s = (false, s) ∧
    delete_password d now s = (false, s) ∧
    get_all_domains s = [] ∧
    change_master_password old new ns nbs nonces now s =
      Except.ok (false, s) := by
  obtain ⟨uf, pf, lf, cu, ck⟩ := s
  simp only [PMState.current_user] at h
  subst h
  cases ck <;>
    exact ⟨rfl, rfl, rfl, rfl, rfl, rfl⟩

/-- The admin auth record used by the concrete instantiation states. -/
def adminRecord : UserRecord :=
  { password_hash := _hash_password "Admin@2024" 3, salt := 7,
    created_at := 1, last_login := none }

/-- The admin session key matching `adminRecord`. -/
def adminKey : Key := _derive_key "Admin@2024" 7

/-- A credential entry for x.com encrypted under `adminKey` with its
stored nonce, used by the concrete instantiation states. -/
def entryX : PwdEntry :=
  { encrypted_data := { plaintext := "pw1", encKey := adminKey, encNonce := 1 },
    nonce := 1, username := some "alice", notes := some "backup",
    created_at := some 1, updated_at := some 1 }

/-- A populated state with no active session, used to instantiate
`no_session_rejects`. -/
def sNoSession : PMState :=
  { users_file := [("admin", adminRecord)],
    passwords_file := [("admin", [("x.com", entryX)])],
    logs_file := ["l1"], current_user := none, current_key := none }

/-- C7 witness: the rejection behaviour at a concrete logged-out state. -/
theorem no_session_rejects_witness :
    add_password "x.com" (some "p") none none "g" 2 5 sNoSession =
      (false, sNoSession) ∧
    get_password "x.com" 5 sNoSession = (none, sNoSession) ∧
    update_password "x.com" (some "p") "g" 2 5 sNoSession =
      (false, sNoSession) ∧
    delete_password "x.com" 5 sNoSession = (false, sNoSession) ∧
    get_all_domains sNoSession = [] ∧
    change_master_password "o" "n" 0 0 [] 5 sNoSession =
      Except.ok (false, sNoSession) :=
  no_session_rejects sNoSession (by rfl) "x.com" "o" "n" "g" (some "p")
    none none 2 5 0 0 []

/-- A state with an active admin session whose stored entry decrypts
cleanly under the session key. -/
def sActive : PMState :=
  { users_file := [("admin", adminRecord)],
    passwords_file := [("admin", [("x.com", entryX)])],
    logs_file := ["l1"],
    current_user := some "admin", current_key := some adminKey }

/-- A credential entry encrypted under a key other than the admin session
key: its GCM tag fails to verify during rotation or retrieval. -/
def entryBad : PwdEntry :=
  { encrypted_data :=
      { plaintext := "x", encKey := _derive_key "other" 1, encNonce := 9 },
    nonce := 9, username := none, notes := none,
    created_at := some 1, updated_at := some 1 }

/-- An active admin session whose stored entry fails to decrypt under the
session key. -/
def sBadRotation : PMState :=
  { users_file := [("admin", adminRecord)],
    passwords_file := [("admin", [("b.com", entryBad)])],
    logs_file := [],
    current_user := some "admin", current_key := some adminKey }

/-- C1 counterexample: at a concrete store where the old password
verifies but the single entry fails to decrypt under the session key,
change_master_password propagates the decryption exception
(Except.error) instead of returning false — refuting the claim that
every rotation failure returns false. The state at the raise is the
untouched pre-rotation state. -/
theorem rotation_decrypt_failure_raises :
    change_master_password "Admin@2024" "New@2024" 1 2 [3] 4 sBadRotation =
      Except.error sBadRotation := by
  decide

/-- Every run of change_master_password has one of three outcomes: a
false return with at most the log modified, a propagated exception with
the state untouched, or a true return. -/
theorem change_master_password_shape (old new : String) (ns nbs now : Nat)
    (nonces : List Nat) (s : PMState) :
    (∃ lf2, change_master_password old new ns nbs nonces now s =
      Except.ok (false, { s with logs_file := lf2 })) ∨
    change_master_password old new ns nbs nonces now s = Except.error s ∨
    (∃ s2, change_master_password old new ns nbs nonces now s =
      Except.ok (true, s2) ∧ s2.current_user.isSome = true ∧
      s2.current_key.isSome = true) := by
  obtain ⟨uf, pf, lf, cu, ck⟩ := s
  unfold change_master_password
  cases cu with
  | none => exact Or.inl ⟨lf, rfl⟩
  | some u =>
      dsimp only
      by_cases hu : u = ""
      · rw [if_pos hu]
        exact Or.inl ⟨lf, rfl⟩
      · rw [if_neg hu]
        cases halk : alookup u uf with
        | none => exact Or.inr (Or.inl rfl)
        | some r =>
            dsimp only
            by_cases hv : _verify_password old r.password_hash = true
            · rw [if_pos hv]
              cases hdec : decryptAllEntries ck ((alookup u pf).getD []) with
              | none => exact Or.inr (Or.inl rfl)
              | some dec => exact Or.inr (Or.inr ⟨_, rfl, rfl, rfl⟩)
            · rw [if_neg hv]
              exact Or.inl ⟨_, rfl⟩

/-- C1 (amended): whenever change_master_password returns false, the
persisted user directory and credential store are unchanged; whenever a
decryption failure makes it raise instead of returning false, the entire
state at the raise is the untouched pre-rotation state (no partial
commit in either case). -/
theorem change_master_password_failure_atomic (old new : String)
    (ns nbs now : Nat) (nonces : List Nat) (s : PMState) :
    (∀ s2, change_master_password old new ns nbs nonces now s =
        Except.ok (false, s2) →
      s2.users_file = s.users_file ∧ s2.passwords_file = s.passwords_file) ∧
    (∀ s2, change_master_password old new ns nbs nonces now s =
        Except.error s2 → s2 = s) := by
  refine ⟨?_, ?_⟩ <;> intro s2 heq <;>
    rcases change_master_password_shape old new ns nbs now nonces s with
      ⟨lf2, hcase⟩ | hcase | ⟨s3, hcase, -, -⟩
  · rw [hcase] at heq
    simp only [Except.ok.injEq, Prod.mk.injEq, true_and] at heq
    exact ⟨by rw [← heq], by rw [← heq]⟩
  · rw [hcase] at heq
    simp at heq
  · rw [hcase] at heq
    simp at heq
  · rw [hcase] at heq
    simp at heq
  · rw [hcase] at heq
    simp only [Except.error.injEq] at heq
    exact heq.symm
  · rw [hcase] at heq
    simp at heq

/-- The state logged by a rejected password-change attempt on sActive. -/
def sActiveLogged : PMState :=
  _log_activity "admin" "Failed password change - incorrect old password"
    4 sActive

/-- C1 witness: a wrong old password yields a false return with both
files unchanged, and a decryption failure yields a raise with the whole
state unchanged. -/
theorem change_master_password_failure_atomic_witness :
    (sActiveLogged.users_file = sActive.users_file ∧
      sActiveLogged.passwords_file = sActive.passwords_file) ∧
    sBadRotation = sBadRotation :=
  ⟨(change_master_password_failure_atomic "wrong" "New@2024" 1 2 4 [3]
      sActive).1 sActiveLogged (by rfl),
   (change_master_password_failure_atomic "Admin@2024" "New@2024" 1 2 4 [3]
      sBadRotation).2 sBadRotation (by rfl)⟩

/-- C3 counterexample: adding a domain that already exists for the
session user does not fail with a Conflict error — the call returns true
and the persisted credential store changes (the entry is overwritten). -/
theorem add_password_existing_domain_overwrites :
    (add_password "x.com" (some "pw2") none none "g" 2 5 sActive).1 = true ∧
    (add_password "x.com" (some "pw2") none none "g" 2 5
      sActive).2.passwords_file ≠ sActive.passwords_file := by
  refine ⟨rfl, ?_⟩
  decide

/-- C3 (amended): add_password performs no conflict check: for every
active session it returns true and writes the domain entry, silently
replacing any existing one; the stored plaintext is the supplied
password when one is given, and the auto-generated one only when none is
supplied. -/
theorem add_password_always_writes (domain u gen : String)
    (pw un nt : Option String) (k : Key) (nonce now : Nat) (s : PMState)
    (hcu : s.current_user = some u) (hu : u ≠ "")
    (hck : s.current_key = some k) :
    (add_password domain pw un nt gen nonce now s).1 = true ∧
    alookup domain ((alookup u
        (add_password domain pw un nt gen nonce now s).2.passwords_file).getD [])
      = some { encrypted_data := mkCipher (pw.getD gen) k nonce,
               nonce := nonce, username := un, notes := nt,
               created_at := some now, updated_at := some now } := by
  obtain ⟨uf, pf, lf, cu, ck⟩ := s
  simp only [PMState.current_user, PMState.current_key] at hcu hck
  subst hcu; subst hck
  unfold add_password
  simp [hu, _encrypt_password, _log_activity, alookup_aset_self, mkCipher]

/-- C3 witness: on sActive, re-adding x.com with password pw2 succeeds
and stores pw2; adding with no password stores the generated one. -/
theorem add_password_always_writes_witness :
    (add_password "x.com" (some "pw2") none none "g" 2 5 sActive).1 = true ∧
    alookup "x.com" ((alookup "admin"
        (add_password "x.com" none none none "g" 2 5
          sActive).2.passwords_file).getD [])
      = some { encrypted_data := mkCipher "g" adminKey 2,
               nonce := 2, username := none, notes := none,
               created_at := some 5, updated_at := some 5 } :=
  ⟨(add_password_always_writes "x.com" "admin" "g" (some "pw2") none none
      adminKey 2 5 sActive (by rfl) (by decide) (by rfl)).1,
   (add_password_always_writes "x.com" "admin" "g" none none none
      adminKey 2 5 sActive (by rfl) (by decide) (by rfl)).2⟩

/-- C5: evaluating the code at a concrete store shows the bug: the entry
for x.com starts with username alice, notes backup and a creation
timestamp, the rotation succeeds, and the persisted re-encrypted entry
has lost all three fields (they read back as None), keeping only
ciphertext, nonce and updated_at. -/
theorem rotation_drops_entry_metadata :
    alookup "x.com" ((alookup "admin" sActive.passwords_file).getD [])
      = some entryX ∧
    entryX.username = some "alice" ∧
    entryX.notes = some "backup" ∧
    entryX.created_at = some 1 ∧
    (change_master_password "Admin@2024" "New@2024" 8 9 [5] 10
        sActive).toOption.map
      (fun r => alookup "x.com" ((alookup "admin" r.2.passwords_file).getD []))
    = some (some { encrypted_data := mkCipher "pw1" (_derive_key "New@2024" 8) 5,
                   nonce := 5, username := none, notes := none,
                   created_at := none, updated_at := some 10 }) := by
  refine ⟨rfl, rfl, rfl, rfl, rfl⟩

/-- C6 counterexample: get_password on a missing domain returns None but
appends no log entry — the state, including the activity log, is
byte-for-byte unchanged, refuting the claim that the miss is logged. -/
theorem get_password_missing_domain_not_logged :
    (get_password "missing.com" 9 sActive).1 = none ∧
    (get_password "missing.com" 9 sActive).2 = sActive :=
  ⟨rfl, rfl⟩

/-- C6 (amended): for every active session, get_password on a missing
domain returns None with the whole state (including the log) unchanged,
and on an entry whose authentication tag fails to verify returns None
and appends exactly one log entry; in both cases it returns the safe
empty result instead of raising (the embedding is a total function — the
bare except catches every decryption exception). -/
theorem get_password_degrades_safely (domain u : String) (k : Key)
    (now : Nat) (s : PMState)
    (hcu : s.current_user = some u) (hu : u ≠ "")
    (hck : s.current_key = some k) :
    (alookup domain ((alookup u s.passwords_file).getD []) = none →
      get_password domain now s = (none, s)) ∧
    (∀ e, alookup domain ((alookup u s.passwords_file).getD []) = some e →
      _decrypt_password e.encrypted_data e.nonce k = none →
      get_password domain now s =
        (none, _log_activity u ("Failed to decrypt password for " ++ domain)
          now s)) := by
  obtain ⟨uf, pf, lf, cu, ck⟩ := s
  simp only [PMState.current_user, PMState.current_key] at hcu hck
  subst hcu; subst hck
  simp only [PMState.passwords_file]
  unfold get_password
  constructor
  · intro hnone
    cases hup : alookup u pf with
    | none => simp [hu, hup]
    | some userMap =>
        rw [hup] at hnone
        simp only [Option.getD_some] at hnone
        simp [hu, hup, hnone]
  · intro e he hdec
    cases hup : alookup u pf with
    | none =>
        rw [hup] at he
        simp [alookup] at he
    | some userMap =>
        rw [hup] at he
        simp only [Option.getD_some] at he
        simp [hu, hup, he, hdec, _log_activity]

/-- C8: under the AEAD-style contracts of the sampler (secrets.choice
returns a member of its pool) and the shuffle (a permutation),
generate_password returns exactly max(length, 12) characters, and every
enabled character class contributes at least one character. -/
theorem generate_password_spec (length : Nat) (uu ul ud us : Bool)
    (choice : List Char → Nat → Char) (shuffle : List Char → List Char)
    (hchoice : ∀ pool i, pool ≠ [] → choice pool i ∈ pool)
    (hshuffle : ∀ l, (shuffle l).Perm l) :
    (generate_password length uu ul ud us choice shuffle).length =
      max length 12 ∧
    (uu = true → ∃ c ∈ generate_password length uu ul ud us choice shuffle,
      c ∈ ascii_uppercase) ∧
    (ul = true → ∃ c ∈ generate_password length uu ul ud us choice shuffle,
      c ∈ ascii_lowercase) ∧
    (ud = true → ∃ c ∈ generate_password length uu ul ud us choice shuffle,
      c ∈ string_digits) ∧
    (us = true → ∃ c ∈ generate_password length uu ul ud us choice shuffle,
      c ∈ special_chars) := by
  have hgen : generate_password length uu ul ud us choice shuffle =
      shuffle (gpSeeds uu ul ud us choice ++
        (List.range (gpLength length - (gpSeeds uu ul ud us choice).length)).map
          (fun i => choice (gpChars uu ul ud us) (4 + i))) := rfl
  have hperm := hshuffle (gpSeeds uu ul ud us choice ++
    (List.range (gpLength length - (gpSeeds uu ul ud us choice).length)).map
      (fun i => choice (gpChars uu ul ud us) (4 + i)))
  have hseeds_le : (gpSeeds uu ul ud us choice).length ≤ 4 := by
    cases uu <;> cases ul <;> cases ud <;> cases us <;> simp [gpSeeds]
  have h12 : 12 ≤ gpLength length := by
    unfold gpLength; split <;> omega
  have hmax : gpLength length = max length 12 := by
    unfold gpLength; split <;> omega
  refine ⟨?_, ?_, ?_, ?_, ?_⟩
  · rw [hgen, hperm.length_eq]
    simp only [List.length_append, List.length_map, List.length_range]
    omega
  · intro h
    refine ⟨choice ascii_uppercase 0, ?_, hchoice _ _ (by decide)⟩
    rw [hgen, hperm.mem_iff]
    apply List.mem_append_left
    simp [gpSeeds, h]
  · intro h
    refine ⟨choice ascii_lowercase 1, ?_, hchoice _ _ (by decide)⟩
    rw [hgen, hperm.mem_iff]
    apply List.mem_append_left
    simp [gpSeeds, h]
  · intro h
    refine ⟨choice string_digits 2, ?_, hchoice _ _ (by decide)⟩
    rw [hgen, hperm.mem_iff]
    apply List.mem_append_left
    simp [gpSeeds, h]
  · intro h
    refine ⟨choice special_chars 3, ?_, hchoice _ _ (by decide)⟩
    rw [hgen, hperm.mem_iff]
    apply List.mem_append_left
    simp [gpSeeds, h]

/-- A concrete sampler for instantiating the generator contract: always
picks the first character of the pool. -/
def headChoice (pool : List Char) (_i : Nat) : Char := pool.headD 'A'

theorem headChoice_mem : ∀ (pool : List Char) (i : Nat), pool ≠ [] →
    headChoice pool i ∈ pool := by
  intro pool i hp
  cases pool with
  | nil => exact absurd rfl hp
  | cons a l => simp [headChoice]

/-- C8 witness: a 16-character request with all classes enabled yields 16
characters containing one of each class. -/
theorem generate_password_spec_witness :
    (generate_password 16 true true true true headChoice id).length =
      max 16 12 ∧
    (true = true → ∃ c ∈ generate_password 16 true true true true headChoice
      id, c ∈ ascii_uppercase) ∧
    (true = true → ∃ c ∈ generate_password 16 true true true true headChoice
      id, c ∈ ascii_lowercase) ∧
    (true = true → ∃ c ∈ generate_password 16 true true true true headChoice
      id, c ∈ string_digits) ∧
    (true = true → ∃ c ∈ generate_password 16 true true true true headChoice
      id, c ∈ special_chars) :=
  generate_password_spec 16 true true true true headChoice id
    headChoice_mem (fun l => List.Perm.refl l)

/-- C6 witness: a missing domain on sActive comes back (None, unchanged
state); the undecryptable b.com entry on sBadRotation comes back None
with one appended log line. -/
theorem get_password_degrades_safely_witness :
    get_password "missing.com" 9 sActive = (none, sActive) ∧
    get_password "b.com" 9 sBadRotation =
      (none, _log_activity "admin"
        ("Failed to decrypt password for " ++ "b.com") 9 sBadRotation) :=
  ⟨(get_password_degrades_safely "missing.com" "admin" adminKey 9 sActive
      (by rfl) (by decide) (by rfl)).1 (by rfl),
   (get_password_degrades_safely "b.com" "admin" adminKey 9 sBadRotation
      (by rfl) (by decide) (by rfl)).2 entryBad (by rfl) (by rfl)⟩


/-- C9: after initialization and after every public operation (authenticate,
logout, change_master_password including its exception path, and all CRUD
calls), current_user and current_key are both set or both None: starting
from any state satisfying the pairing, every reachable state satisfies it. -/
theorem session_user_key_paired (s : PMState) (h : sessionConsistent s)
    (u p np d gen : String) (pw un nt : Option String)
    (ns nbs nonce now : Nat) (nonces : List Nat) (b1 b2 b3 k1 k2 k3 : Nat) :
    sessionConsistent (initState b1 b2 b3 k1 k2 k3 now) ∧
    sessionConsistent (authenticate u p now s).2 ∧
    sessionConsistent (logout now s) ∧
    (∀ r s2, change_master_password p np ns nbs nonces now s =
        Except.ok (r, s2) → sessionConsistent s2) ∧
    (∀ s2, change_master_password p np ns nbs nonces now s =
        Except.error s2 → sessionConsistent s2) ∧
    sessionConsistent (add_password d pw un nt gen nonce now s).2 ∧
    sessionConsistent (get_password d now s).2 ∧
    sessionConsistent (update_password d pw gen nonce now s).2 ∧
    sessionConsistent (delete_password d now s).2 := by
  obtain ⟨uf, pf, lf, cu, ck⟩ := s
  simp only [sessionConsistent] at h
  refine ⟨by simp [sessionConsistent, initState], ?_, ?_, ?_, ?_, ?_, ?_, ?_, ?_⟩
  · unfold authenticate
    cases halk : alookup u uf with
    | none => simpa [sessionConsistent, _log_activity] using h
    | some r =>
        by_cases hv : _verify_password p r.password_hash = true
        · simp [hv, sessionConsistent, _log_activity]
        · simpa [hv, sessionConsistent, _log_activity] using h
  · simp [logout, sessionConsistent]
  · intro r s2 heq
    rcases change_master_password_shape p np ns nbs now nonces
        ⟨uf, pf, lf, cu, ck⟩ with ⟨lf2, hc⟩ | hc | ⟨s3, hc, hcu3, hck3⟩
    · rw [hc] at heq
      simp only [Except.ok.injEq, Prod.mk.injEq] at heq
      obtain ⟨-, h2⟩ := heq
      rw [← h2]
      simpa [sessionConsistent] using h
    · rw [hc] at heq
      simp at heq
    · rw [hc] at heq
      simp only [Except.ok.injEq, Prod.mk.injEq] at heq
      obtain ⟨-, h2⟩ := heq
      rw [← h2]
      simp [sessionConsistent, hcu3, hck3]
  · intro s2 heq
    rcases change_master_password_shape p np ns nbs now nonces
        ⟨uf, pf, lf, cu, ck⟩ with ⟨lf2, hc⟩ | hc | ⟨s3, hc, hcu3, hck3⟩
    · rw [hc] at heq
      simp at heq
    · rw [hc] at heq
      simp only [Except.error.injEq] at heq
      rw [← heq]
      simpa [sessionConsistent] using h
    · rw [hc] at heq
      simp at heq
  · unfold add_password
    cases cu with
    | none => cases ck <;> simpa [sessionConsistent] using h
    | some u0 =>
        cases ck with
        | none => simpa [sessionConsistent] using h
        | some k0 =>
            by_cases hu : u0 = ""
            · simpa [hu, sessionConsistent] using h
            · simpa [hu, sessionConsistent, _log_activity] using h
  · unfold get_password
    cases cu with
    | none => cases ck <;> simpa [sessionConsistent] using h
    | some u0 =>
        cases ck with
        | none => simpa [sessionConsistent] using h
        | some k0 =>
            by_cases hu : u0 = ""
            · simpa [hu, sessionConsistent] using h
            · cases hup : alookup u0 pf with
              | none => simpa [hu, hup, sessionConsistent] using h
              | some um =>
                  cases hd : alookup d um with
                  | none => simpa [hu, hup, hd, sessionConsistent] using h
                  | some e =>
                      cases hdec : _decrypt_password e.encrypted_data e.nonce
                          k0 with
                      | none =>
                          simpa [hu, hup, hd, hdec, sessionConsistent,
                            _log_activity] using h
                      | some pl =>
                          simpa [hu, hup, hd, hdec, sessionConsistent,
                            _log_activity] using h
  · unfold update_password
    cases cu with
    | none => cases ck <;> simpa [sessionConsistent] using h
    | some u0 =>
        cases ck with
        | none => simpa [sessionConsistent] using h
        | some k0 =>
            by_cases hu : u0 = ""
            · simpa [hu, sessionConsistent] using h
            · cases hup : alookup u0 pf with
              | none => simpa [hu, hup, sessionConsistent] using h
              | some um =>
                  cases hd : alookup d um with
                  | none => simpa [hu, hup, hd, sessionConsistent] using h
                  | some e =>
                      simpa [hu, hup, hd, sessionConsistent, _log_activity]
                        using h
  · unfold delete_password
    cases cu with
    | none => simpa [sessionConsistent] using h
    | some u0 =>
        by_cases hu : u0 = ""
        · simpa [hu, sessionConsistent] using h
        · cases hup : alookup u0 pf with
          | none => simpa [hu, hup, sessionConsistent] using h
          | some um =>
              cases hd : alookup d um with
              | none => simpa [hu, hup, hd, sessionConsistent] using h
              | some e =>
                  simpa [hu, hup, hd, sessionConsistent, _log_activity]
                    using h

/-- C9 witness: the pairing holds at the seeded initial state and after each
operation run on concrete active-session states. -/
theorem session_user_key_paired_witness :
    sessionConsistent (initState 1 2 3 4 5 6 4) ∧
    sessionConsistent (authenticate "admin" "wrong" 4 sActive).2 ∧
    sessionConsistent (logout 4 sActive) ∧
    sessionConsistent sActiveLogged ∧
    sessionConsistent sBadRotation ∧
    sessionConsistent
      (add_password "x.com" (some "p") none none "g" 2 4 sActive).2 ∧
    sessionConsistent (get_password "x.com" 4 sActive).2 ∧
    sessionConsistent (update_password "x.com" (some "p") "g" 2 4 sActive).2 ∧
    sessionConsistent (delete_password "x.com" 4 sActive).2 := by
  have T := session_user_key_paired sActive (by rfl) "admin" "wrong"
    "New@2024" "x.com" "g" (some "p") none none 8 9 2 4 [5] 1 2 3 4 5 6
  have T2 := session_user_key_paired sBadRotation (by rfl) "admin"
    "Admin@2024" "New@2024" "b.com" "g" (some "p") none none 1 2 9 4 [3]
    1 2 3 4 5 6
  exact ⟨T.1, T.2.1, T.2.2.1,
    T.2.2.2.1 false sActiveLogged (by decide),
    T2.2.2.2.2.1 sBadRotation (by decide),
    T.2.2.2.2.2.1, T.2.2.2.2.2.2.1, T.2.2.2.2.2.2.2.1,
    T.2.2.2.2.2.2.2.2⟩

/-- With an active session, add_password returns true and writes the
encrypted entry with fresh timestamps, appending one log line. -/
theorem add_password_eq (domain P gen u : String) (un nt : Option String)
    (k : Key) (n1 t1 : Nat) (s : PMState)
    (hcu : s.current_user = some u) (hu : u ≠ "")
    (hck : s.current_key = some k) :
    add_password domain (some P) un nt gen n1 t1 s =
      (true,
        { s with
          passwords_file := aset u (aset domain
              ⟨mkCipher P k n1, n1, un, nt, some t1, some t1⟩
              ((alookup u s.passwords_file).getD [])) s.passwords_file,
          logs_file := s.logs_file ++
            [logLine t1 u ("Added password for domain: " ++ domain)] }) := by
  obtain ⟨uf, pf, lf, cu, ck⟩ := s
  simp only [PMState.current_user, PMState.current_key] at hcu hck
  subst hcu; subst hck
  simp [add_password, hu, _encrypt_password, _log_activity, mkCipher]

/-- With an active session, a verifying old password and a store whose
entries all decrypt under the session key, change_master_password
succeeds: new salt and hash replace the AuthRecord fields, every entry
is re-encrypted under the new derived key, and the session key is
updated. -/
theorem change_master_password_success_eq (old new u : String) (k : Key)
    (r : UserRecord) (ns nbs now : Nat) (nonces : List Nat) (s : PMState)
    (hcu : s.current_user = some u) (hu : u ≠ "")
    (hck : s.current_key = some k)
    (hrec : alookup u s.users_file = some r)
    (hver : _verify_password old r.password_hash = true)
    (hgood : ∀ q ∈ (alookup u s.passwords_file).getD [],
      q.2.encrypted_data.encKey = k ∧
        q.2.encrypted_data.encNonce = q.2.nonce) :
    change_master_password old new ns nbs nonces now s =
      Except.ok (true,
        { s with
          users_file := aset u
            ⟨_hash_password new nbs, ns, r.created_at, r.last_login⟩
            s.users_file,
          passwords_file := aset u
            (reEncryptEntries (_derive_key new ns) now
              (((alookup u s.passwords_file).getD []).map
                (fun q => (q.1, q.2.encrypted_data.plaintext))) nonces)
            s.passwords_file,
          logs_file := s.logs_file ++
            [logLine now u "Master password changed successfully"],
          current_key := some (_derive_key new ns) }) := by
  obtain ⟨uf, pf, lf, cu, ck⟩ := s
  simp only [PMState.current_user, PMState.current_key,
    PMState.users_file, PMState.passwords_file] at hcu hck hrec hgood
  subst hcu; subst hck
  have hdec := decryptAllEntries_ok k ((alookup u pf).getD []) hgood
  simp [change_master_password, hu, hrec, hver, hdec, _log_activity]

/-- logout with an active (truthy) user: one log line, both session
fields cleared. -/
theorem logout_eq (t : Nat) (u : String) (s : PMState)
    (hcu : s.current_user = some u) (hu : u ≠ "") :
    logout t s =
      { s with
        logs_file := s.logs_file ++ [logLine t u "Logged out"],
        current_user := none, current_key := none } := by
  obtain ⟨uf, pf, lf, cu, ck⟩ := s
  simp only [PMState.current_user] at hcu
  subst hcu
  simp [logout, hu, _log_activity]

/-- authenticate with an existing user and a verifying password: last
login bumped, session bound to the user with the freshly derived key. -/
theorem authenticate_success_eq (u pwd : String) (r : UserRecord) (t : Nat)
    (s : PMState) (hrec : alookup u s.users_file = some r)
    (hver : _verify_password pwd r.password_hash = true) :
    authenticate u pwd t s =
      (true,
        { s with
          users_file := aset u
            ⟨r.password_hash, r.salt, r.created_at, some t⟩ s.users_file,
          logs_file := s.logs_file ++ [logLine t u "Successful login"],
          current_user := some u,
          current_key := some (_derive_key pwd r.salt) }) := by
  obtain ⟨uf, pf, lf, cu, ck⟩ := s
  simp only [PMState.users_file] at hrec
  simp [authenticate, hrec, hver, _log_activity]

/-- get_password on a present entry that decrypts cleanly returns the
plaintext together with the stored metadata. -/
theorem get_password_found_eq (domain u : String) (k : Key) (t : Nat)
    (s : PMState) (e : PwdEntry) (pl : String)
    (hcu : s.current_user = some u) (hu : u ≠ "")
    (hck : s.current_key = some k)
    (he : alookup domain ((alookup u s.passwords_file).getD []) = some e)
    (hdec : _decrypt_password e.encrypted_data e.nonce k = some pl) :
    (get_password domain t s).1 =
      some ⟨pl, e.username, e.notes, e.created_at, e.updated_at⟩ := by
  obtain ⟨uf, pf, lf, cu, ck⟩ := s
  simp only [PMState.current_user, PMState.current_key,
    PMState.passwords_file] at hcu hck he
  subst hcu; subst hck
  cases hup : alookup u pf with
  | none =>
      rw [hup] at he
      simp [alookup] at he
  | some um =>
      rw [hup] at he
      simp only [Option.getD_some] at he
      simp [get_password, hu, hup, he, hdec]

/-- Instance of alookup_map_snd for the plaintext projection used by the
rotation loops. -/
theorem alookup_map_plaintext (k2 : String) (l : UserPwds) :
    alookup k2 (l.map (fun q => (q.1, q.2.encrypted_data.plaintext))) =
      (alookup k2 l).map (fun v => v.encrypted_data.plaintext) :=
  alookup_map_snd (fun v => v.encrypted_data.plaintext) k2 l

/-- C2: Scenario D. For every active session whose stored entries
decrypt under the session key and whose old password verifies: after
add_password(domain, P), change_master_password(old, new) succeeds, and
after logout and a fresh authenticate with new, get_password(domain)
still returns P. -/
theorem scenario_d_roundtrip
    (u old new domain P gen : String) (un nt : Option String)
    (k : Key) (r : UserRecord) (s : PMState)
    (n1 t1 ns nbs t2 t3 t4 t5 : Nat) (nonces : List Nat)
    (hu : u ≠ "")
    (hcu : s.current_user = some u)
    (hck : s.current_key = some k)
    (hrec : alookup u s.users_file = some r)
    (hver : _verify_password old r.password_hash = true)
    (hgood : ∀ q ∈ (alookup u s.passwords_file).getD [],
      q.2.encrypted_data.encKey = k ∧
        q.2.encrypted_data.encNonce = q.2.nonce) :
    (∃ s2, change_master_password old new ns nbs nonces t2
        (add_password domain (some P) un nt gen n1 t1 s).2 =
      Except.ok (true, s2)) ∧
    (∀ s2, change_master_password old new ns nbs nonces t2
        (add_password domain (some P) un nt gen n1 t1 s).2 =
      Except.ok (true, s2) →
      (authenticate u new t4 (logout t3 s2)).1 = true ∧
      ((get_password domain t5
        (authenticate u new t4 (logout t3 s2)).2).1.map
        (fun g2 => g2.password)) = some P) := by
  have hadd := add_password_eq domain P gen u un nt k n1 t1 s hcu hu hck
  have hcu1 : (add_password domain (some P) un nt gen n1 t1
      s).2.current_user = some u := by
    rw [hadd]; exact hcu
  have hck1 : (add_password domain (some P) un nt gen n1 t1
      s).2.current_key = some k := by
    rw [hadd]; exact hck
  have hrec1 : alookup u (add_password domain (some P) un nt gen n1 t1
      s).2.users_file = some r := by
    rw [hadd]; exact hrec
  have hgood1 : ∀ q ∈ (alookup u (add_password domain (some P) un nt gen n1
      t1 s).2.passwords_file).getD [],
      q.2.encrypted_data.encKey = k ∧
        q.2.encrypted_data.encNonce = q.2.nonce := by
    rw [hadd]
    dsimp only
    rw [alookup_aset_self]
    dsimp only [Option.getD_some]
    intro q hq
    rcases mem_aset hq with hq1 | hq2
    · subst hq1
      exact ⟨rfl, rfl⟩
    · exact hgood q hq2
  have hcmp := change_master_password_success_eq old new u k r ns nbs t2
    nonces _ hcu1 hu hck1 hrec1 hver hgood1
  refine ⟨⟨_, hcmp⟩, ?_⟩
  intro s2 heq
  have h2 := hcmp.symm.trans heq
  simp only [Except.ok.injEq, Prod.mk.injEq, true_and] at h2
  subst h2
  have hD : alookup domain
      (((alookup u (add_password domain (some P) un nt gen n1 t1
        s).2.passwords_file).getD []).map
        (fun q => (q.1, q.2.encrypted_data.plaintext))) = some P := by
    rw [hadd]
    dsimp only
    rw [alookup_aset_self]
    dsimp only [Option.getD_some]
    rw [alookup_map_plaintext, alookup_aset_self]
    rfl
  obtain ⟨n2, hre⟩ := alookup_reEncryptEntries (_derive_key new ns) t2
    domain _ nonces P hD
  rw [logout_eq t3 u _ (by exact hcu1) hu]
  rw [authenticate_success_eq u new
    ⟨_hash_password new nbs, ns, r.created_at, r.last_login⟩ t4 _
    (by exact alookup_aset_self u _ _)
    (by simp [_verify_password, _hash_password])]
  refine ⟨rfl, ?_⟩
  rw [get_password_found_eq domain u (_derive_key new ns) t5 _
    ⟨⟨P, _derive_key new ns, n2⟩, n2, none, none, none, some t2⟩ P
    (by rfl) hu (by rfl)
    (by show alookup domain ((alookup u (aset u _ _)).getD []) = _
        rw [alookup_aset_self]
        exact hre)
    (by simp [_decrypt_password])]
  rfl

/-- The state after adding a.com with password pw1 on sActive. -/
def sD1 : PMState :=
  (add_password "a.com" (some "pw1") none none "g" 7 1 sActive).2

/-- The state after the subsequent successful master-password rotation. -/
def sD2 : PMState :=
  match change_master_password "Admin@2024" "New@2024" 8 9 [6] 2 sD1 with
  | Except.ok (_, x) => x
  | Except.error x => x

/-- C2 witness: the concrete Scenario D run on sActive: rotation
succeeds, the re-login returns true and get yields pw1. -/
theorem scenario_d_roundtrip_witness :
    (authenticate "admin" "New@2024" 4 (logout 3 sD2)).1 = true ∧
    ((get_password "a.com" 5
      (authenticate "admin" "New@2024" 4 (logout 3 sD2)).2).1.map
      (fun g2 => g2.password)) = some "pw1" :=
  (scenario_d_roundtrip "admin" "Admin@2024" "New@2024" "a.com" "pw1" "g"
    none none adminKey adminRecord sActive 7 1 8 9 2 3 4 5 [6]
    (by decide) (by rfl) (by rfl) (by rfl) (by decide) (by decide)).2
    sD2 (by decide)
